import Mathlib

/-!
Verification of the Genesis-Legality-AI clause pipeline.

Shallow embedding of:
  * `segmentation/patterns.py`            (heading grammar)
  * `segmentation/clause_splitter.py`     (tree builder, integrity merge)
  * `classification/clause_classifier.py` (weighted classifier)
  * `risk/risk_engine.py`                 (rule matching, perspective resolution,
                                           contract aggregation)

Text is modelled as `List Char` (abbreviated `Str`).  The Python regular
expressions of the source are translated into explicit character-list
matchers that produce the same match results on the pattern shapes the
source uses (each translation is justified next to its definition).
Python dictionaries become association lists with insert-or-replace
semantics, and Python's stable `sort` becomes a stable insertion sort.
-/

set_option maxRecDepth 100000

abbrev Str := List Char

/-- Python whitespace (the ASCII subset recognised by `str.strip` / `\s`). -/
def isPyWS (c : Char) : Bool :=
  c = ' ' || c = '\t' || c = '\n' || c = '\r' || c = '\x0b' || c = '\x0c'

/-- `str.strip()`: drop whitespace from both ends. -/
def stripWS (s : Str) : Str :=
  ((s.dropWhile isPyWS).reverse.dropWhile isPyWS).reverse

/-- `str.upper()` (ASCII). -/
def upperStr (s : Str) : Str := s.map Char.toUpper

/-- `str.lower()` (ASCII). -/
def lowerStr (s : Str) : Str := s.map Char.toLower

/-- Digit test used for `\d`. -/
def isDigitChar (c : Char) : Bool := c.isDigit

/-- Word character for `\b` boundaries (`[A-Za-z0-9_]`). -/
def isWordChar (c : Char) : Bool := c.isAlphanum || c = '_'

/-- Character class of the heading-title groups: `[A-Za-z0-9 ,\-()]`. -/
def isTitleChar (c : Char) : Bool :=
  c.isAlphanum || c = ' ' || c = ',' || c = '-' || c = '(' || c = ')'

/-- Character class of the ARTICLE/SECTION id group: `[IVXivx0-9]`. -/
def isRomanChar (c : Char) : Bool :=
  c = 'I' || c = 'V' || c = 'X' || c = 'i' || c = 'v' || c = 'x' || c.isDigit

/-- Numeric value of a digit run (Python `int` on a digit string). -/
def natOfDigits (s : Str) : Nat :=
  s.foldl (fun a c => 10 * a + (c.toNat - '0'.toNat)) 0

/-- If `pre` is a prefix of `s`, return the remainder. -/
def prefixDrop (pre s : Str) : Option Str :=
  match pre, s with
  | [], rest => some rest
  | _ :: _, [] => none
  | p :: ps, c :: cs => if p = c then prefixDrop ps cs else none

/-- Case-insensitive `prefixDrop`; `pre` is given lower-case. -/
def prefixDropCI (pre s : Str) : Option Str :=
  match pre, s with
  | [], rest => some rest
  | _ :: _, [] => none
  | p :: ps, c :: cs => if p = c.toLower then prefixDropCI ps cs else none

/-- Python `needle in hay` (substring containment). -/
def containsSubstr (needle : Str) : Str → Bool
  | [] => (prefixDrop needle []).isSome
  | c :: tl => (prefixDrop needle (c :: tl)).isSome || containsSubstr needle tl

/-- Split on every occurrence of a single character (Python `str.split(sep)`). -/
def splitOnChar (sep : Char) : Str → List Str
  | [] => [[]]
  | c :: tl =>
    match splitOnChar sep tl with
    | h :: t => if c = sep then [] :: h :: t else (c :: h) :: t
    | [] => [[c]]

/-- Split on maximal runs of characters satisfying `p`
(the behaviour of `re.split` on a `[...]+` class, and of `str.split()`és
whitespace splitting before empties are filtered). -/
def splitOnRuns (p : Char → Bool) : Str → List Str
  | [] => [[]]
  | c :: tl =>
    let r := splitOnRuns p tl
    if p c then
      match tl with
      | d :: _ => if p d then r else [] :: r
      | [] => [] :: r
    else
      match r with
      | h :: t => (c :: h) :: t
      | [] => [[c]]

/-- `" ".join` style joining. -/
def joinWith (sep : Str) (parts : List Str) : Str := List.intercalate sep parts

-- ===========================================================================
-- segmentation/patterns.py
-- ===========================================================================

/-- Result of `CLAUSE_HEADING_REGEX.match`: the clause id (group 1, or
`"KEYWORD id"` assembled from groups 3–4), the raw title group (2 or 5),
and `match.end()` measured in the matched string. -/
structure HeadInfo where
  clauseId : Str
  title : Str
  stop : Nat
deriving DecidableEq, Repr

/-- Maximal-munch `(?:\.\d+)*`: returns (consumed, rest).  Fuel-indexed;
each step consumes at least two characters, so `s.length` fuel suffices. -/
def dotGroupsFuel : Nat → Str → Str × Str
  | 0, s => ([], s)
  | fuel + 1, s =>
    match s with
    | '.' :: rest =>
      let ds := rest.takeWhile isDigitChar
      if ds.isEmpty then ([], s)
      else
        let (more, fin) := dotGroupsFuel fuel (rest.drop ds.length)
        ('.' :: (ds ++ more), fin)
    | _ => ([], s)

def dotGroups (s : Str) : Str × Str := dotGroupsFuel s.length s

/-- The title group `[A-Z][A-Za-z0-9 ,\-()]{2,}` (greedy, nothing follows it
in the regex, hence maximal): returns (title, rest). -/
def takeTitle (s : Str) : Option (Str × Str) :=
  match s with
  | [] => none
  | c :: tl =>
    if c.isUpper then
      let run := tl.takeWhile isTitleChar
      if 2 ≤ run.length then some (c :: run, tl.drop run.length) else none
    else none

/-- The numeric alternative `(\d+(?:\.\d+)*)[.)]?\s+([A-Z][A-Za-z0-9 ,\-()]{2,})`.
Both quantified groups are maximal-munch: shrinking `\d+` or `(?:\.\d+)*`
leaves a digit or a dot where `[.)]?\s+` must match, which always fails, so
Python's backtracking coincides with maximal munch here. -/
def matchNumericHead (s : Str) : Option HeadInfo :=
  let ds := s.takeWhile isDigitChar
  if ds.isEmpty then none
  else
    let rest0 := s.drop ds.length
    let (dots, rest1) := dotGroups rest0
    -- `[.)]?\s+`: if the optional punctuation is taken, whitespace must
    -- follow; if it is not taken the head character must be whitespace
    -- (a present `.`/`)` head fails both ways unless consumed).
    let rest2 :=
      match rest1 with
      | c :: tl => if c = '.' || c = ')' then tl else rest1
      | [] => rest1
    let ws := rest2.takeWhile isPyWS
    if ws.isEmpty then none
    else
      match takeTitle (rest2.drop ws.length) with
      | some (t, fin) => some ⟨ds ++ dots, t, s.length - fin.length⟩
      | none => none

/-- Backtracking over the length of the `[IVXivx0-9]+` group (longest first),
as Python does when the greedy id group would eat into the title. -/
def tryRomanLens (run after : Str) : Nat → Option (Str × Str × Str)
  | 0 => none
  | k + 1 =>
    let idPart := run.take (k + 1)
    let rest := run.drop (k + 1) ++ after
    -- `\s*[–\-]?\s*` is deterministic: whitespace is neither a dash nor an
    -- upper-case letter, and a dash that is not consumed cannot start the
    -- title, so each piece is maximal/greedy without backtracking.
    let rest1 := rest.dropWhile isPyWS
    let rest2 :=
      match rest1 with
      | c :: tl => if c = '–' || c = '-' then tl else rest1
      | [] => rest1
    match takeTitle (rest2.dropWhile isPyWS) with
    | some (t, fin) => some (idPart, t, fin)
    | none => tryRomanLens run after k

/-- The `(ARTICLE|SECTION)\s+([IVXivx0-9]+)\s*[–\-]?\s*([A-Z]...)` alternative. -/
def matchArtSecHead (s : Str) : Option HeadInfo :=
  let kwRest : Option (Str × Str) :=
    match prefixDrop "ARTICLE".data s with
    | some r => some ("ARTICLE".data, r)
    | none =>
      match prefixDrop "SECTION".data s with
      | some r => some ("SECTION".data, r)
      | none => none
  match kwRest with
  | none => none
  | some (kw, r0) =>
    let ws := r0.takeWhile isPyWS
    if ws.isEmpty then none
    else
      let r1 := r0.drop ws.length
      let run := r1.takeWhile isRomanChar
      if run.isEmpty then none
      else
        match tryRomanLens run (r1.drop run.length) run.length with
        | some (idPart, t, fin) => some ⟨kw ++ ' ' :: idPart, t, s.length - fin.length⟩
        | none => none

/-- `CLAUSE_HEADING_REGEX.match(line)`: the two alternatives start with a
digit resp. `A`/`S`, so trying them in order is exact. -/
def clauseHeadingMatch (s : Str) : Option HeadInfo :=
  match matchNumericHead s with
  | some h => some h
  | none => matchArtSecHead s

/-- `NON_HEADING_KEYWORDS` (a Python set; only existence of a match is used). -/
def NON_HEADING_KEYWORDS : List Str :=
  ["Road".data, "Avenue".data, "Ave".data, "Street".data, "St".data,
   "Boulevard".data, "Blvd".data, "Drive".data, "Dr".data,
   "Lane".data, "Ln".data, "Court".data, "Ct".data, "Place".data, "Pl".data,
   "Way".data, "Parkway".data, "Pkwy".data,
   "Building".data, "Floor".data, "Suite".data, "Ste".data, "Box".data,
   "PO".data, "Apartment".data, "Apt".data,
   "Attention".data, "Facsimile".data, "Fax".data, "Phone".data, "Tel".data,
   "Email".data, "Contact".data,
   "Signature".data, "By /s/".data, "Title".data, "IN WITNESS".data,
   "WHEREOF".data,
   "Page".data, "Exhibit".data, "Appendix".data, "Schedule".data,
   "USA".data, "United States".data, "Zip".data, "Postal".data,
   "Telephone".data]

def isWordOpt : Option Char → Bool
  | some c => isWordChar c
  | none => false

/-- `\b`: exactly one side of the position is a word character. -/
def wbBoundary (a b : Option Char) : Bool := isWordOpt a != isWordOpt b

/-- One candidate position of `\b<needle>\b` (with `prev` the character just
before the position). -/
def wbCheckAt (needle hay : Str) (prev : Option Char) : Bool :=
  match prefixDrop needle hay with
  | some after =>
    wbBoundary prev needle.head? && wbBoundary needle.getLast? after.head?
  | none => false

def wbSearchAux (needle : Str) (prev : Option Char) : Str → Bool
  | [] => wbCheckAt needle [] prev
  | c :: tl => wbCheckAt needle (c :: tl) prev || wbSearchAux needle (some c) tl

/-- `re.search(r'\b' + re.escape(kw) + r'\b', hay)` as a Boolean. -/
def wbSearch (needle hay : Str) : Bool := wbSearchAux needle none hay

/-- The keyword rejection loop of `is_valid_heading` over `heading_upper`. -/
def containsKeywordWB (hay : Str) : Bool :=
  NON_HEADING_KEYWORDS.any (fun kw => wbSearch (upperStr kw) hay)

/-- Take exactly `n` digits, returning the rest. -/
def takeNDigits : Nat → Str → Option Str
  | 0, s => some s
  | n + 1, c :: tl => if isDigitChar c then takeNDigits n tl else none
  | _ + 1, [] => none

/-- `ZIP_CODE_PATTERN = \b\d{5}(?:-\d{4})?\b` tested at one position. -/
def zipAt (prev : Option Char) (s : Str) : Bool :=
  match takeNDigits 5 s with
  | none => false
  | some r =>
    !(isWordOpt prev) &&
    ((match r with
      | '-' :: r2 =>
        match takeNDigits 4 r2 with
        | some r3 => !(isWordOpt r3.head?)
        | none => false
      | _ => false) ||
     !(isWordOpt r.head?))

def zipSearchAux (prev : Option Char) : Str → Bool
  | [] => false
  | c :: tl => zipAt prev (c :: tl) || zipSearchAux (some c) tl

/-- `ZIP_CODE_PATTERN.search`. -/
def zipSearch (s : Str) : Bool := zipSearchAux none s

/-- `PHONE_PATTERN = \d{3}[-.]?\d{3}[-.]?\d{4}` tested at one position;
the optional separators contribute a disjunction of outcomes. -/
def optSepDrops (s : Str) : List Str :=
  match s with
  | c :: tl => if c = '-' || c = '.' then [tl, s] else [s]
  | [] => [s]

def phoneAt (s : Str) : Bool :=
  match takeNDigits 3 s with
  | none => false
  | some r1 =>
    (optSepDrops r1).any fun r2 =>
      match takeNDigits 3 r2 with
      | none => false
      | some r3 => (optSepDrops r3).any fun r4 => (takeNDigits 4 r4).isSome

def phoneSearchAux : Str → Bool
  | [] => false
  | c :: tl => phoneAt (c :: tl) || phoneSearchAux tl

/-- `PHONE_PATTERN.search`. -/
def phoneSearch (s : Str) : Bool := phoneAt s || phoneSearchAux s

/-- After `Page`/`p.`: `\s+\d+` needs at least one whitespace and the first
non-whitespace character after the run must be a digit. -/
def wsThenDigit (s : Str) : Bool :=
  let ws := s.takeWhile isPyWS
  !ws.isEmpty &&
    (match (s.drop ws.length).head? with
     | some d => isDigitChar d
     | none => false)

/-- `(?:Page|p\.)\s+\d+` (case-insensitive) tested at one position. -/
def pageKeyAt (s : Str) : Bool :=
  (match prefixDropCI "page".data s with
   | some r => wsThenDigit r
   | none => false) ||
  (match prefixDropCI "p.".data s with
   | some r => wsThenDigit r
   | none => false)

def pageScan : Str → Bool
  | [] => false
  | c :: tl => (isPyWS c && pageKeyAt tl) || pageScan tl

/-- `PAGE_PATTERN = (?:^|\s)(?:Page|p\.)\s+\d+` with `re.IGNORECASE`. -/
def pageSearch (s : Str) : Bool := pageKeyAt s || pageScan s

/-- The trailing number-range check of `is_valid_heading`
(`re.match(r'^(\d+)', line)` and `1 <= n <= 99`). -/
def numRangeOk (l : Str) : Bool :=
  let ds := l.takeWhile isDigitChar
  if ds.isEmpty then true
  else
    let n := natOfDigits ds
    decide (1 ≤ n ∧ n ≤ 99)

/-- `is_valid_heading`: the early-return chain of the source written as a
short-circuit conjunction of the same checks in the same order. -/
def isValidHeading (line : Str) : Bool :=
  let l := stripWS line
  !l.isEmpty &&
  (clauseHeadingMatch l).isSome &&
  !containsKeywordWB (upperStr (l.take 100)) &&
  !zipSearch l &&
  !phoneSearch l &&
  !pageSearch l &&
  numRangeOk l

/-- `re.sub(r'[.,:;]+\s*$', '', title.strip())`: after the strip there is no
trailing whitespace, so this removes the maximal trailing run of `.,:;`. -/
def cleanTitle (t : Str) : Str :=
  let s := stripWS t
  (s.reverse.dropWhile (fun c => c = '.' || c = ',' || c = ':' || c = ';')).reverse

/-- `extract_clause_number_and_title`. -/
def extractClauseNumberAndTitle (line : Str) : Option Str × Option Str :=
  match clauseHeadingMatch (stripWS line) with
  | none => (none, none)
  | some h => (some h.clauseId, some (cleanTitle h.title))

/-- `get_parent_clause_id`. -/
def getParentClauseId (cid : Str) : Option Str :=
  if cid.isEmpty || !(cid.contains '.') then none
  else
    let parts := splitOnChar '.' cid
    if 1 < parts.length then some (joinWith ['.'] parts.dropLast) else none

/-- `is_subclause`. -/
def isSubclause (cid : Str) : Bool := cid.contains '.'

/-- `count_sentences`: split at runs of `.!?`, count segments that are not
pure whitespace. -/
def countSentences (text : Str) : Nat :=
  if text.isEmpty then 0
  else
    ((splitOnRuns (fun c => c = '.' || c = '!' || c = '?') text).filter
      (fun s => !(stripWS s).isEmpty)).length

-- sanity examples for the heading grammar
example : extractClauseNumberAndTitle "2. Restrictions".data =
    (some "2".data, some "Restrictions".data) := by decide
example : extractClauseNumberAndTitle "2.4 Other Parties Bound".data =
    (some "2.4".data, some "Other Parties Bound".data) := by decide
example : isValidHeading "750 University Avenue, Suite 200".data = false := by decide
example : isValidHeading "1. Hello".data = true := by decide
example : getParentClauseId "2.1.3".data = some "2.1".data := by decide
example : getParentClauseId "2".data = none := by decide
example : countSentences "a. b.".data = 2 := by decide
example : countSentences "abc def".data = 1 := by decide

example : extractClauseNumberAndTitle "ARTICLE V – Termination".data =
    (some "ARTICLE V".data, some "Termination".data) := by decide

-- ===========================================================================
-- segmentation/clause_splitter.py
-- ===========================================================================

/-- `FOOTER_KEYWORDS`. -/
def FOOTER_KEYWORDS : List Str :=
  ["Copyright Â©".data, "All Rights Reserved".data, "Page ".data]

/-- Python `str.isdigit()` on the ASCII inputs involved: non-empty and all
digits. -/
def pyIsDigitStr (s : Str) : Bool := !s.isEmpty && s.all isDigitChar

/-- `is_noise_line`. -/
def isNoiseLine (line : Str) : Bool :=
  if line.isEmpty || (stripWS line).length < 3 then true
  else if FOOTER_KEYWORDS.any (fun k => containsSubstr k line) then true
  else
    let s := stripWS line
    s.length ≤ 5 && pyIsDigitStr (s.filter (fun c => c ≠ '-' && c ≠ '.'))

/-- `find_all_headings`: `(line_index, line, clause_id, title)` for every
line that is not noise, validates as a heading, and yields truthy
(non-empty) id and title. -/
def findAllHeadings (text : Str) : List (Nat × Str × Str × Str) :=
  ((splitOnChar '\n' text).enum).filterMap fun p =>
    let line := p.2
    if isNoiseLine line then none
    else if isValidHeading line then
      match extractClauseNumberAndTitle line with
      | (some cid, some t) =>
        if !cid.isEmpty && !t.isEmpty then some (p.1, line, cid, t) else none
      | _ => none
    else none

/-- A clause node (`clause_dict` of the source). -/
inductive Clause where
  | mk (id title text : Str) (subclauses : List Clause)

def Clause.id : Clause → Str
  | .mk i _ _ _ => i

def Clause.title : Clause → Str
  | .mk _ t _ _ => t

def Clause.text : Clause → Str
  | .mk _ _ tx _ => tx

def Clause.subclauses : Clause → List Clause
  | .mk _ _ _ s => s

/-- A clause before tree reorganisation (an entry of the `clauses` dict). -/
structure Flat where
  id : Str
  title : Str
  text : Str
deriving DecidableEq, Repr

/-- Python dict update `clauses[clause_id] = clause_dict`: replace in place
if the key exists (its position in iteration order is kept), else append. -/
def insertOrReplace (m : List Flat) (c : Flat) : List Flat :=
  match m with
  | [] => [c]
  | x :: xs => if x.id = c.id then c :: xs else x :: insertOrReplace xs c

/-- Body extraction for one heading: the same-line remainder (sliced with
`match.end()` computed on the stripped line but applied to the raw line,
exactly as the source does), then all non-noise stripped lines up to the
next heading, joined with single spaces and stripped. -/
def headingBody (lines : List Str) (lineIdx nextIdx : Nat) (hline : Str) : Str :=
  let sameLine : List Str :=
    match clauseHeadingMatch (stripWS hline) with
    | some h =>
      let remainder := stripWS (hline.drop h.stop)
      match remainder with
      | [] => []
      | c :: tl =>
        if c = '.' || c = ':' || c = ',' then [stripWS tl] else [remainder]
    | none => []
  let between :=
    ((lines.drop (lineIdx + 1)).take (nextIdx - (lineIdx + 1))).filterMap fun l =>
      let ls := stripWS l
      if isNoiseLine ls then none else some ls
  stripWS (joinWith [' '] (sameLine ++ between))

/-- The `clauses` dict after the per-heading loop of `build_clause_tree`. -/
def clausesAssoc (text : Str) : List Flat :=
  let lines := splitOnChar '\n' text
  let hs := findAllHeadings text
  (hs.enum).foldl
    (fun m e =>
      let idx := e.1
      let lineIdx := e.2.1
      let hline := e.2.2.1
      let cid := e.2.2.2.1
      let title := e.2.2.2.2
      let nextIdx :=
        match hs.get? (idx + 1) with
        | some nxt => nxt.1
        | none => lines.length
      insertOrReplace m ⟨cid, title, headingBody lines lineIdx nextIdx hline⟩)
    []

/-- The final nested state of a clause dict: its subclauses are the dict
entries (in dict order) whose parent id is this id, recursively.  Fuel
bounds the nesting depth; `m.length` suffices because each nesting level
uses a distinct key of `m`. -/
def nestFuel : Nat → List Flat → Flat → Clause
  | 0, _, f => .mk f.id f.title f.text []
  | fuel + 1, m, f =>
    .mk f.id f.title f.text
      ((m.filter fun e =>
          isSubclause e.id && (getParentClauseId e.id == some f.id))
        |>.map (nestFuel fuel m))

/-- `_clause_sort_key` (Python tuples of ints become `List Nat`). -/
def parseNatStr (s : Str) : Option Nat :=
  if !s.isEmpty && s.all isDigitChar then some (natOfDigits s) else none

def clauseSortKey (cid : Str) : List Nat :=
  if cid.contains '.' then
    match (splitOnChar '.' cid).mapM parseNatStr with
    | some ns => ns
    | none => [0]
  else
    match ((splitOnRuns isPyWS cid).filter (fun w => !w.isEmpty)).head? with
    | some w =>
      match parseNatStr w with
      | some n => [n]
      | none => [0]
    | none => [0]

/-- Python tuple-of-ints comparison (lexicographic, prefix is smaller). -/
def keyLt : List Nat → List Nat → Bool
  | [], [] => false
  | [], _ :: _ => true
  | _ :: _, [] => false
  | a :: xs, b :: ys => if a < b then true else if b < a then false else keyLt xs ys

/-- Stable insertion (a later element goes after equal keys). -/
def insertStable (lt : α → α → Bool) (x : α) : List α → List α
  | [] => [x]
  | y :: ys => if lt x y then x :: y :: ys else y :: insertStable lt x ys

/-- Stable sort by a strict comparison, matching Python's stable `sort`. -/
def sortStable (lt : α → α → Bool) (l : List α) : List α :=
  l.foldl (fun acc x => insertStable lt x acc) []

/-- The validity test of `apply_integrity_rules`. -/
def isSubstantialClause (c : Clause) : Bool :=
  150 ≤ c.text.length || 2 ≤ countSentences c.text || 1 ≤ c.subclauses.length

/-- The accumulator loop of `apply_integrity_rules` (`acc` is the reversed
`result` list; merging mutates the last kept clause's text). -/
def integLoop : List Clause → List Clause → List Clause
  | acc, [] => acc.reverse
  | acc, c :: rest =>
    if isSubstantialClause c then integLoop (c :: acc) rest
    else
      match acc with
      | [] => integLoop [] rest
      | p :: ps =>
        integLoop (.mk p.id p.title (p.text ++ ' ' :: c.text) p.subclauses :: ps) rest

/-- `apply_integrity_rules`. -/
def applyIntegrityRules (cs : List Clause) : List Clause := integLoop [] cs

/-- `build_clause_tree`. -/
def buildClauseTree (text : Str) : List Clause :=
  if text.isEmpty || (stripWS text).isEmpty then []
  else
    let hs := findAllHeadings text
    if hs.isEmpty then [.mk "1".data "Contract".data (stripWS text) []]
    else
      let m := clausesAssoc text
      let top := (m.filter fun f => !(isSubclause f.id)).map (nestFuel m.length m)
      let sorted :=
        sortStable (fun a b => keyLt (clauseSortKey a.id) (clauseSortKey b.id)) top
      applyIntegrityRules sorted

/-- `segment_clauses`. -/
def segmentClauses (text : Str) : List Clause := buildClauseTree text

-- ===========================================================================
-- Spec-side models (used to compare the code against the spec's wording)
-- ===========================================================================

/-- Group a document's lines into blank-line-delimited chunks. -/
def splitLinesOnBlank : List Str → List (List Str)
  | [] => [[]]
  | l :: ls =>
    match splitLinesOnBlank ls with
    | g :: gs =>
      if (stripWS l).isEmpty then [] :: g :: gs else (l :: g) :: gs
    | [] => [[l]]

/-- Modelled from the spec: the paragraph segments its no-heading fallback
describes — blank-line-delimited paragraphs, or, if none, newline-delimited
paragraphs of length > 50, capped at 20 segments.  (No such fallback exists
in the source; `build_clause_tree` returns a single "Contract" clause.) -/
def specFallbackParagraphs (text : Str) : List Str :=
  let lines := splitOnChar '\n' text
  let blanks :=
    ((splitLinesOnBlank lines).map (fun g => stripWS (joinWith ['\n'] g))).filter
      (fun s => !s.isEmpty)
  let paras :=
    if blanks.isEmpty then
      (lines.map stripWS).filter (fun s => 50 < s.length)
    else blanks
  paras.take 20

/-- Modelled from the spec: the synthetic titles ("Section N") the claimed
fallback would give its segments. -/
def specFallbackTitles (text : Str) : List Str :=
  (List.range (specFallbackParagraphs text).length).map
    (fun n => "Section ".data ++ Nat.toDigits 10 (n + 1))

/-- The substantiality test as the amended integrity claim words it. -/
def specSubstantial (c : Clause) : Bool :=
  150 ≤ c.text.length || 2 ≤ countSentences c.text || !c.subclauses.isEmpty

/-- Fold one run of non-substantial clauses into the clause before them,
appending each body with a separating space. -/
def specAbsorb : Clause → List Clause → Clause × List Clause
  | c, [] => (c, [])
  | c, d :: rest =>
    if specSubstantial d then (c, d :: rest)
    else specAbsorb (.mk c.id c.title (c.text ++ ' ' :: d.text) c.subclauses) rest

theorem specAbsorb_length (c : Clause) (l : List Clause) :
    (specAbsorb c l).2.length ≤ l.length := by
  induction l generalizing c with
  | nil => simp [specAbsorb]
  | cons d rest ih =>
    by_cases h : specSubstantial d = true
    · simp [specAbsorb, h]
    · simp only [specAbsorb, h]
      exact Nat.le_succ_of_le (ih _)

/-- Modelled from the amended integrity claim: keep each substantial clause,
absorbing the non-substantial run that follows it; non-substantial clauses
before the first substantial one are dropped. -/
def specIntegrityMerge : List Clause → List Clause
  | [] => []
  | c :: rest =>
    if specSubstantial c then
      let p := specAbsorb c rest
      p.1 :: specIntegrityMerge p.2
    else specIntegrityMerge rest
termination_by l => l.length
decreasing_by
  · exact Nat.lt_succ_of_le (specAbsorb_length _ _)
  · simp

-- ===========================================================================
-- classification/clause_classifier.py
-- ===========================================================================

/-- A compiled, case-insensitive text pattern is modelled by its search
function (`re.search(pattern, s) is not None`). -/
abbrev PatternFn := Str → Bool

/-- `ClauseClassifier.TYPE_PRIORITY`. -/
def TYPE_PRIORITY : List Str :=
  ["INDEMNITY".data, "TERMINATION".data, "LIABILITY".data, "PAYMENT".data,
   "CONFIDENTIALITY".data, "INTELLECTUAL_PROPERTY".data, "GOVERNING_LAW".data,
   "DISPUTE_RESOLUTION".data, "NON_COMPETE".data, "WARRANTY".data,
   "FORCE_MAJEURE".data, "ASSIGNMENT".data, "AMENDMENT".data,
   "SEVERABILITY".data, "ENTIRE_AGREEMENT".data, "GENERAL".data]

/-- `TYPE_PRIORITY.index(t) if t in TYPE_PRIORITY else len(TYPE_PRIORITY)`:
for an absent element the recursion returns the length of the list. -/
def priorityIdx : List Str → Str → Nat
  | [], _ => 0
  | x :: xs, t => if x = t then 0 else 1 + priorityIdx xs t

/-- Per-category score: every pattern adds `TITLE_WEIGHT = 2` on a title
match and `TEXT_WEIGHT = 1` on a body match (the 2.0/1.0 floats of the
source only ever hold whole numbers, so `Nat` is exact). -/
def scoreCat (title body : Str) (pats : List PatternFn) : Nat :=
  pats.foldl (fun s p => s + (if p title then 2 else 0) + (if p body then 1 else 0)) 0

/-- The `scores` dict of `classify_types` in its (unique-keyed) insertion
order: zero-scoring categories are not inserted. -/
def scoresOf (table : List (Str × List PatternFn)) (clause_text clause_title : Str) :
    List (Str × Nat) :=
  let title := lowerStr clause_title
  let body := lowerStr clause_text
  table.filterMap fun e =>
    let s := scoreCat title body e.2
    if 0 < s then some (e.1, s) else none

/-- The sort comparison of `classify_types`: key `(-score, priority index)`,
ascending. -/
def classLt (a b : Str × Nat) : Bool :=
  decide (b.2 < a.2 ∨ (a.2 = b.2 ∧ priorityIdx TYPE_PRIORITY a.1 < priorityIdx TYPE_PRIORITY b.1))

/-- The `ordered` list of `classify_types` (Python's stable `sorted`). -/
def orderedOf (table : List (Str × List PatternFn)) (clause_text clause_title : Str) :
    List (Str × Nat) :=
  sortStable classLt (scoresOf table clause_text clause_title)

structure Classification where
  primary_type : Str
  secondary_types : List Str
  types : List Str
deriving DecidableEq, Repr

/-- `ClauseClassifier.classify_types` (the pattern table is the classifier's
`CLAUSE_PATTERNS`, whose compiled patterns are abstracted as search
functions). -/
def classifyTypes (table : List (Str × List PatternFn)) (clause_text clause_title : Str) :
    Classification :=
  let ordered := orderedOf table clause_text clause_title
  let types := if ordered.isEmpty then ["GENERAL".data] else ordered.map Prod.fst
  { primary_type := types.headD []
    secondary_types := if 1 < types.length then (types.drop 1).take 2 else []
    types := types }

-- ===========================================================================
-- risk/risk_engine.py
-- ===========================================================================

/-- `RiskRule` after `__init__` (patterns are compiled case-insensitive
regexes, modelled by their search functions; `contract_types` and
`perspectives` are stored lower-cased). -/
structure RiskRule where
  rule_id : Str
  name : Str
  clause_types : List Str
  patterns : List PatternFn
  risk_level : Str
  description : Str
  why_risky : Str
  recommendation : Str
  redline_suggestion : Option Str
  example_clauses : List Str
  contract_types : List Str
  perspectives : List Str
  perspective_risk_levels : List (Str × Str)
  perspective_descriptions : List (Str × Str)

/-- `RiskRule.__init__`: `or`-defaults for the optional arguments, and
lower-casing of the scoping lists. -/
def mkRiskRule (rule_id name : Str) (clause_types : List Str)
    (patterns : List PatternFn) (risk_level description why_risky recommendation : Str)
    (redline_suggestion : Option Str) (example_clauses : Option (List Str))
    (contract_types perspectives : Option (List Str))
    (perspective_risk_levels perspective_descriptions : Option (List (Str × Str))) :
    RiskRule :=
  { rule_id := rule_id
    name := name
    clause_types := clause_types
    patterns := patterns
    risk_level := risk_level
    description := description
    why_risky := why_risky
    recommendation := recommendation
    redline_suggestion := redline_suggestion
    example_clauses := example_clauses.getD []
    contract_types := (contract_types.getD []).map lowerStr
    perspectives := (perspectives.getD []).map lowerStr
    perspective_risk_levels := perspective_risk_levels.getD []
    perspective_descriptions := perspective_descriptions.getD [] }

/-- First-match association lookup (`dict` access with unique keys). -/
def lookupAssoc (m : List (Str × Str)) (k : Str) : Option Str :=
  match m with
  | [] => none
  | (a, b) :: tl => if a = k then some b else lookupAssoc tl k

/-- `RiskRule.get_risk_level` (a `None` or empty perspective is falsy). -/
def getRiskLevel (r : RiskRule) (perspective : Option Str) : Str :=
  match perspective with
  | some p =>
    if !p.isEmpty then
      match lookupAssoc r.perspective_risk_levels (lowerStr p) with
      | some v => v
      | none => r.risk_level
    else r.risk_level
  | none => r.risk_level

/-- `RiskRule.get_description`. -/
def getDescription (r : RiskRule) (perspective : Option Str) : Str :=
  match perspective with
  | some p =>
    if !p.isEmpty then
      match lookupAssoc r.perspective_descriptions (lowerStr p) with
      | some v => v
      | none => r.description
    else r.description
  | none => r.description

/-- `RiskRule.matches`: the three scope gates in source order, then the
pattern search. -/
def ruleMatches (r : RiskRule) (text : Str) (clause_types : List Str)
    (contract_type perspective : Option Str) : Bool :=
  if !r.clause_types.isEmpty && !(r.clause_types.any (fun ct => clause_types.contains ct)) then
    false
  else if !r.contract_types.isEmpty &&
      (match contract_type with
       | none => true
       | some c => c.isEmpty || !(r.contract_types.contains (lowerStr c))) then
    false
  else if !r.perspectives.isEmpty &&
      (match perspective with
       | none => true
       | some p => p.isEmpty || !(r.perspectives.contains (lowerStr p))) then
    false
  else
    r.patterns.any (fun pat => pat text)

/-- The clause dict handed to `analyze_clause` (`.get` fields are optional). -/
structure InClause where
  id : Option Str
  title : Option Str
  text : Option Str
  types : Option (List Str)

/-- One entry of `matched_rules`. -/
structure MatchedRule where
  rule_id : Str
  name : Str
  risk_level : Str
  description : Str
  why_risky : Str
  recommendation : Str
  redline_suggestion : Option Str
  example_clauses : List Str
  contract_scope : List Str
  perspective_scope : List Str

/-- Result of `analyze_clause`. -/
structure ClauseRisk where
  clause_id : Option Str
  clause_title : Option Str
  risk_level : Str
  matched_rules : List MatchedRule
  risk_count : Nat

/-- `RiskEngine.analyze_clause`. -/
def analyzeClause (rules : List RiskRule) (clause : InClause)
    (contract_type perspective : Option Str) : ClauseRisk :=
  let text := clause.text.getD []
  let ctypes := clause.types.getD ["GENERAL".data]
  let matched := rules.filterMap fun r =>
    if ruleMatches r text ctypes contract_type perspective then
      some { rule_id := r.rule_id
             name := r.name
             risk_level := getRiskLevel r perspective
             description := getDescription r perspective
             why_risky := r.why_risky
             recommendation := r.recommendation
             redline_suggestion := r.redline_suggestion
             example_clauses := r.example_clauses
             contract_scope := r.contract_types
             perspective_scope := r.perspectives }
    else none
  let levels := matched.map MatchedRule.risk_level
  let overall :=
    if levels.contains "HIGH".data then "HIGH".data
    else if levels.contains "MEDIUM".data then "MEDIUM".data
    else "LOW".data
  { clause_id := clause.id
    clause_title := clause.title
    risk_level := overall
    matched_rules := matched
    risk_count := matched.length }

/-- Result of `analyze_contract`. -/
structure ContractRisk where
  overall_risk : Str
  total_clauses : Nat
  high_risk_clauses : Nat
  medium_risk_clauses : Nat
  low_risk_clauses : Nat
  clause_analyses : List ClauseRisk
  all_flagged_rules : List MatchedRule
  context_contract_type : Option Str
  context_perspective : Option Str

/-- The accumulator step of `analyze_contract`'s loop. -/
def contractStep (rules : List RiskRule) (contract_type perspective : Option Str)
    (st : List ClauseRisk × Nat × Nat × Nat × List MatchedRule) (clause : InClause) :
    List ClauseRisk × Nat × Nat × Nat × List MatchedRule :=
  let ra := analyzeClause rules clause contract_type perspective
  let results := st.1 ++ [ra]
  let h := st.2.1
  let m := st.2.2.1
  let l := st.2.2.2.1
  let allr := st.2.2.2.2 ++ ra.matched_rules
  if ra.risk_level = "HIGH".data then (results, h + 1, m, l, allr)
  else if ra.risk_level = "MEDIUM".data then (results, h, m + 1, l, allr)
  else (results, h, m, l + 1, allr)

/-- `RiskEngine.analyze_contract`. -/
def analyzeContract (rules : List RiskRule) (clauses : List InClause)
    (contract_type perspective : Option Str) : ContractRisk :=
  let st := clauses.foldl (contractStep rules contract_type perspective) ([], 0, 0, 0, [])
  let results := st.1
  let h := st.2.1
  let m := st.2.2.1
  let l := st.2.2.2.1
  let allr := st.2.2.2.2
  let overall :=
    if 3 ≤ h then "HIGH".data
    else if 1 ≤ h ∨ 5 ≤ m then "MEDIUM".data
    else "LOW".data
  { overall_risk := overall
    total_clauses := clauses.length
    high_risk_clauses := h
    medium_risk_clauses := m
    low_risk_clauses := l
    clause_analyses := results
    all_flagged_rules := allr
    context_contract_type := contract_type
    context_perspective := perspective }

-- ===========================================================================
-- Helper lemmas
-- ===========================================================================

theorem nestFuel_id (n : Nat) (m : List Flat) (f : Flat) :
    (nestFuel n m f).id = f.id := by
  cases n <;> rfl

theorem specSubstantial_eq (c : Clause) :
    specSubstantial c = isSubstantialClause c := by
  cases c with
  | mk i t tx subs =>
    cases subs <;>
      simp [specSubstantial, isSubstantialClause, Clause.subclauses, Clause.text]

theorem integLoop_cons_sub (acc : List Clause) (c : Clause) (rest : List Clause)
    (h : isSubstantialClause c = true) :
    integLoop acc (c :: rest) = integLoop (c :: acc) rest := by
  simp [integLoop, h]

theorem integLoop_cons_drop (c : Clause) (rest : List Clause)
    (h : isSubstantialClause c = false) :
    integLoop [] (c :: rest) = integLoop [] rest := by
  simp [integLoop, h]

theorem integLoop_cons_merge (p : Clause) (ps : List Clause) (c : Clause)
    (rest : List Clause) (h : isSubstantialClause c = false) :
    integLoop (p :: ps) (c :: rest) =
      integLoop (.mk p.id p.title (p.text ++ ' ' :: c.text) p.subclauses :: ps) rest := by
  simp [integLoop, h]

theorem insertStable_mem (lt : α → α → Bool) (x a : α) (l : List α) :
    a ∈ insertStable lt x l ↔ a = x ∨ a ∈ l := by
  induction l with
  | nil => simp [insertStable]
  | cons y ys ih =>
    by_cases h : lt x y = true
    · simp [insertStable, h]
    · simp only [insertStable, h]
      simp [ih]
      tauto

theorem sortStable_mem_aux (lt : α → α → Bool) (l acc : List α) (a : α) :
    a ∈ l.foldl (fun acc x => insertStable lt x acc) acc ↔ a ∈ acc ∨ a ∈ l := by
  induction l generalizing acc with
  | nil => simp
  | cons x xs ih =>
    simp only [List.foldl_cons, ih, insertStable_mem, List.mem_cons]
    tauto

theorem sortStable_mem (lt : α → α → Bool) (l : List α) (a : α) :
    a ∈ sortStable lt l ↔ a ∈ l := by
  simpa [sortStable] using sortStable_mem_aux lt l [] a

theorem integLoop_map_id (cs acc : List Clause) :
    (integLoop acc cs).map Clause.id =
      (acc.map Clause.id).reverse ++ (cs.filter isSubstantialClause).map Clause.id := by
  induction cs generalizing acc with
  | nil => simp [integLoop]
  | cons c rest ih =>
    by_cases h : isSubstantialClause c = true
    · rw [integLoop_cons_sub _ _ _ h, ih]
      simp [List.filter_cons, h]
    · rw [List.filter_cons]
      cases acc with
      | nil =>
        rw [integLoop_cons_drop _ _ (by simpa using h), ih]
        simp [h]
      | cons p ps =>
        rw [integLoop_cons_merge _ _ _ _ (by simpa using h), ih]
        simp [h, Clause.id]

theorem applyIntegrityRules_map_id (cs : List Clause) :
    (applyIntegrityRules cs).map Clause.id =
      (cs.filter isSubstantialClause).map Clause.id := by
  simpa using integLoop_map_id cs []

theorem integLoop_spec (cs : List Clause) (p : Clause) (ps : List Clause) :
    integLoop (p :: ps) cs =
      ps.reverse ++ ((specAbsorb p cs).1 :: specIntegrityMerge (specAbsorb p cs).2) := by
  induction cs generalizing p ps with
  | nil => simp [integLoop, specAbsorb, specIntegrityMerge]
  | cons c rest ih =>
    by_cases h : isSubstantialClause c = true
    · rw [integLoop_cons_sub _ _ _ h, ih]
      have hs : specSubstantial c = true := by rw [specSubstantial_eq]; exact h
      simp only [specAbsorb, hs, if_pos]
      rw [specIntegrityMerge]
      simp [hs]
    · have hs : specSubstantial c = false := by rw [specSubstantial_eq]; simpa using h
      rw [integLoop_cons_merge _ _ _ _ (by simpa using h), ih]
      simp only [specAbsorb, hs]
      simp

theorem applyIntegrityRules_eq_spec (cs : List Clause) :
    applyIntegrityRules cs = specIntegrityMerge cs := by
  induction cs with
  | nil => simp [applyIntegrityRules, integLoop, specIntegrityMerge]
  | cons c rest ih =>
    by_cases h : isSubstantialClause c = true
    · have hs : specSubstantial c = true := by rw [specSubstantial_eq]; exact h
      rw [applyIntegrityRules, integLoop_cons_sub _ _ _ h,
        integLoop_spec rest c []]
      rw [specIntegrityMerge]
      simp [hs]
    · have hs : specSubstantial c = false := by rw [specSubstantial_eq]; simpa using h
      rw [applyIntegrityRules, integLoop_cons_drop _ _ (by simpa using h)]
      rw [show integLoop [] rest = applyIntegrityRules rest from rfl, ih]
      rw [specIntegrityMerge]
      simp [hs]

/-- Predicate: the clause resolves HIGH. -/
def clauseIsHigh (rules : List RiskRule) (ct p : Option Str) (c : InClause) : Bool :=
  (analyzeClause rules c ct p).risk_level = "HIGH".data

/-- Predicate: the clause resolves MEDIUM (and not HIGH), as the loop counts. -/
def clauseIsMed (rules : List RiskRule) (ct p : Option Str) (c : InClause) : Bool :=
  !((analyzeClause rules c ct p).risk_level = "HIGH".data : Bool) &&
  ((analyzeClause rules c ct p).risk_level = "MEDIUM".data : Bool)

/-- Predicate: neither HIGH nor MEDIUM. -/
def clauseIsLow (rules : List RiskRule) (ct p : Option Str) (c : InClause) : Bool :=
  !((analyzeClause rules c ct p).risk_level = "HIGH".data : Bool) &&
  !((analyzeClause rules c ct p).risk_level = "MEDIUM".data : Bool)

theorem contractFold (rules : List RiskRule) (ct p : Option Str)
    (cls : List InClause) (res : List ClauseRisk) (h m l : Nat)
    (allr : List MatchedRule) :
    cls.foldl (contractStep rules ct p) (res, h, m, l, allr) =
      (res ++ cls.map (fun c => analyzeClause rules c ct p),
       h + cls.countP (clauseIsHigh rules ct p),
       m + cls.countP (clauseIsMed rules ct p),
       l + cls.countP (clauseIsLow rules ct p),
       allr ++ (cls.map (fun c => (analyzeClause rules c ct p).matched_rules)).flatten) := by
  induction cls generalizing res h m l allr with
  | nil => simp
  | cons c rest ih =>
    rw [List.foldl_cons]
    by_cases hH : (analyzeClause rules c ct p).risk_level = "HIGH".data
    · rw [show contractStep rules ct p (res, h, m, l, allr) c =
          (res ++ [analyzeClause rules c ct p], h + 1, m, l,
           allr ++ (analyzeClause rules c ct p).matched_rules) from by
            simp [contractStep, hH]]
      rw [ih]
      simp [List.countP_cons, clauseIsHigh, clauseIsMed, clauseIsLow, hH]
      omega
    · by_cases hM : (analyzeClause rules c ct p).risk_level = "MEDIUM".data
      · rw [show contractStep rules ct p (res, h, m, l, allr) c =
            (res ++ [analyzeClause rules c ct p], h, m + 1, l,
             allr ++ (analyzeClause rules c ct p).matched_rules) from by
              simp [contractStep, hH, hM]]
        rw [ih]
        simp [List.countP_cons, clauseIsHigh, clauseIsMed, clauseIsLow, hH, hM]
        omega
      · rw [show contractStep rules ct p (res, h, m, l, allr) c =
            (res ++ [analyzeClause rules c ct p], h, m, l + 1,
             allr ++ (analyzeClause rules c ct p).matched_rules) from by
              simp [contractStep, hH, hM]]
        rw [ih]
        simp [List.countP_cons, clauseIsHigh, clauseIsMed, clauseIsLow, hH, hM]
        omega

theorem countP_partition (q r : α → Bool) (l : List α) :
    l.countP q + l.countP (fun a => !q a && r a) + l.countP (fun a => !q a && !r a) =
      l.length := by
  induction l with
  | nil => simp
  | cons x xs ih =>
    simp only [List.countP_cons]
    by_cases hq : q x = true <;> by_cases hr : r x = true <;>
      simp [hq, hr] <;> omega

theorem insertStable_pairwise (lt : α → α → Bool)
    (hasym : ∀ x y, lt x y = true → lt y x = false)
    (htrans : ∀ x y w, lt x y = true → lt w y = false → lt w x = false)
    (x : α) (l : List α) (hl : l.Pairwise (fun a b => lt b a = false)) :
    (insertStable lt x l).Pairwise (fun a b => lt b a = false) := by
  induction l with
  | nil => simp [insertStable]
  | cons y ys ih =>
    rcases List.pairwise_cons.mp hl with ⟨hy, hys⟩
    by_cases h : lt x y = true
    · rw [insertStable, if_pos h]
      refine List.pairwise_cons.mpr ⟨?_, hl⟩
      intro z hz
      rcases List.mem_cons.mp hz with rfl | hz
      · exact hasym _ _ h
      · exact htrans x y z h (hy z hz)
    · rw [insertStable, if_neg h]
      refine List.pairwise_cons.mpr ⟨?_, ih hys⟩
      intro z hz
      rcases (insertStable_mem lt x z ys).mp hz with rfl | hz
      · simpa using h
      · exact hy z hz

theorem sortStable_pairwise_aux (lt : α → α → Bool)
    (hasym : ∀ x y, lt x y = true → lt y x = false)
    (htrans : ∀ x y w, lt x y = true → lt w y = false → lt w x = false)
    (l acc : List α) (hacc : acc.Pairwise (fun a b => lt b a = false)) :
    (l.foldl (fun acc x => insertStable lt x acc) acc).Pairwise
      (fun a b => lt b a = false) := by
  induction l generalizing acc with
  | nil => simpa using hacc
  | cons x xs ih =>
    simpa using ih _ (insertStable_pairwise lt hasym htrans x acc hacc)

theorem sortStable_pairwise (lt : α → α → Bool)
    (hasym : ∀ x y, lt x y = true → lt y x = false)
    (htrans : ∀ x y w, lt x y = true → lt w y = false → lt w x = false)
    (l : List α) :
    (sortStable lt l).Pairwise (fun a b => lt b a = false) :=
  sortStable_pairwise_aux lt hasym htrans l [] (by simp)

theorem classLt_asym (x y : Str × Nat) (h : classLt x y = true) : classLt y x = false := by
  simp only [classLt, decide_eq_true_eq] at h
  simp only [classLt, decide_eq_false_iff_not]
  omega

theorem classLt_negtrans (x y w : Str × Nat) (h1 : classLt x y = true)
    (h2 : classLt w y = false) : classLt w x = false := by
  simp only [classLt, decide_eq_true_eq] at h1
  simp only [classLt, decide_eq_false_iff_not] at h2 ⊢
  omega

/-- The child-id list of the tree node with id `j` (if such a node exists
among the collected clauses). -/
def nodeChildIds (m : List Flat) (j : Str) : List Str :=
  match m.find? (fun e => e.id == j) with
  | some g => (nestFuel m.length m g).subclauses.map Clause.id
  | none => []

theorem getParentClauseId_isSubclause (i j : Str) (h : getParentClauseId i = some j) :
    isSubclause i = true := by
  by_cases hc : isSubclause i = true
  · exact hc
  · exfalso
    rw [getParentClauseId] at h
    have : (i.isEmpty || !i.contains '.') = true := by
      simp [isSubclause] at hc
      simp [hc]
    rw [if_pos this] at h
    exact Option.noConfusion h

-- ===========================================================================
-- Claim theorems
-- ===========================================================================

/-- A two-paragraph text with no valid headings. -/
def exT0 : Str := "hello world\n\ngoodbye world".data

/-- C1 (counterexample): on a heading-free text with two blank-line-delimited
paragraphs, the claimed fallback would produce two clauses titled
"Section 1"/"Section 2", but the code immediately returns one clause titled
"Contract" — the paragraph-splitting step does not exist. -/
theorem c1_counterexample :
    findAllHeadings exT0 = [] ∧
    stripWS exT0 ≠ [] ∧
    specFallbackTitles exT0 = ["Section 1".data, "Section 2".data] ∧
    (segmentClauses exT0).map Clause.title = ["Contract".data] := by
  refine ⟨by decide, by decide, by decide, ?_⟩
  rfl

/-- C1 (amended): for every input text in which the scan pass finds zero
valid headings and whose stripped text is non-empty, the segmenter returns
exactly one flat clause with id "1", title "Contract" and the stripped text
as body; there is no intermediate paragraph-based splitting. -/
theorem c1_no_heading_single_contract_clause (text : Str)
    (hh : findAllHeadings text = []) (hne : stripWS text ≠ []) :
    segmentClauses text = [Clause.mk "1".data "Contract".data (stripWS text) []] := by
  have h1 : text.isEmpty = false := by
    cases text with
    | nil => simp [stripWS] at hne
    | cons c tl => rfl
  have h2 : (stripWS text).isEmpty = false := by
    cases h : stripWS text with
    | nil => exact absurd h hne
    | cons c tl => rfl
  simp [segmentClauses, buildClauseTree, h1, h2, hh]

/-- C1 (witness). -/
theorem c1_witness :
    findAllHeadings "just some plain prose".data = [] ∧
    stripWS "just some plain prose".data ≠ [] ∧
    segmentClauses "just some plain prose".data =
      [Clause.mk "1".data "Contract".data (stripWS "just some plain prose".data) []] :=
  ⟨by decide, by decide,
    c1_no_heading_single_contract_clause "just some plain prose".data
      (by decide) (by decide)⟩

/-- C2 (counterexample): the non-empty input "1. Hello" is parsed into one
heading whose clause has an empty body, no second sentence and no children;
the integrity step drops it (there is no previous clause to merge into), so
the segmenter returns an empty sequence for non-empty input. -/
theorem c2_counterexample :
    segmentClauses "1. Hello".data = [] ∧ stripWS "1. Hello".data ≠ [] :=
  ⟨rfl, by decide⟩

/-- C2 (amended): the segmenter is total; it returns an empty sequence on
every empty or whitespace-only input, and at least one clause on non-empty
input in which the scan pass finds no headings.  (When headings are found,
the integrity merge may drop every clause, so non-empty input can still
yield an empty sequence.) -/
theorem c2_empty_and_no_heading_behaviour (text : Str) :
    (stripWS text = [] → segmentClauses text = []) ∧
    (stripWS text ≠ [] → findAllHeadings text = [] → segmentClauses text ≠ []) := by
  constructor
  · intro h
    have h2 : (stripWS text).isEmpty = true := by simp [h]
    simp [segmentClauses, buildClauseTree, h2]
  · intro hne hh
    have h1 : text.isEmpty = false := by
      cases text with
      | nil => simp [stripWS] at hne
      | cons c tl => rfl
    have h2 : (stripWS text).isEmpty = false := by
      cases h : stripWS text with
      | nil => exact absurd h hne
      | cons c tl => rfl
    simp [segmentClauses, buildClauseTree, h1, h2, hh]

/-- C2 (witness). -/
theorem c2_witness :
    segmentClauses "  \n ".data = [] ∧
    segmentClauses "plain prose with no heading".data ≠ [] :=
  ⟨(c2_empty_and_no_heading_behaviour "  \n ".data).1 (by decide),
   (c2_empty_and_no_heading_behaviour "plain prose with no heading".data).2
     (by decide) (by decide)⟩

/-- C3 (counterexample): a non-substantial clause with no preceding clause
is not "kept as-is" — `apply_integrity_rules` drops it. -/
theorem c3_counterexample :
    isSubstantialClause (Clause.mk "1".data "Intro".data "hi".data []) = false ∧
    applyIntegrityRules [Clause.mk "1".data "Intro".data "hi".data []] = [] :=
  ⟨by decide, rfl⟩

/-- C3 (amended): a top-level clause is substantial iff its body has at
least 150 characters, or splitting the body at runs of sentence-ending
punctuation leaves at least 2 non-whitespace segments, or it has at least
1 child; every non-substantial clause is folded (with a separating space)
into the nearest preceding substantial clause, and non-substantial clauses
before the first substantial one are dropped.  `specIntegrityMerge` is that
description; it coincides with the code on every input. -/
theorem c3_integrity_merge_spec (cs : List Clause) :
    applyIntegrityRules cs = specIntegrityMerge cs :=
  applyIntegrityRules_eq_spec cs

/-- C4: for every detected heading with a valid dotted id `p.c`, the node
with id `p.c` is placed among the children of the node with id `p` whenever
a clause with id `p` was collected; and a sub-clause id never appears among
the top-level clauses the segmenter returns. -/
theorem c4_subclause_nesting :
    (∀ text : Str,
      (segmentClauses text).all (fun c => !(isSubclause c.id)) = true) ∧
    (∀ (text : Str) (i j : Str),
      ((clausesAssoc text).any (fun e => e.id == i)) = true →
      getParentClauseId i = some j →
      ((clausesAssoc text).any (fun e => e.id == j)) = true →
      i ∈ nodeChildIds (clausesAssoc text) j) := by
  constructor
  · intro text
    rw [List.all_eq_true]
    intro c hc
    simp only [Bool.not_eq_true']
    by_cases h1 : (text.isEmpty || (stripWS text).isEmpty) = true
    · rw [segmentClauses, buildClauseTree, if_pos h1] at hc
      simp at hc
    · by_cases h2 : (findAllHeadings text).isEmpty = true
      · rw [segmentClauses, buildClauseTree, if_neg h1, if_pos h2] at hc
        simp at hc
        subst hc
        simp only [Clause.id]
        decide
      · rw [segmentClauses, buildClauseTree, if_neg h1, if_neg h2] at hc
        have hid : c.id ∈ (applyIntegrityRules
            (sortStable (fun a b => keyLt (clauseSortKey a.id) (clauseSortKey b.id))
              (((clausesAssoc text).filter fun f => !(isSubclause f.id)).map
                (nestFuel (clausesAssoc text).length (clausesAssoc text))))).map
            Clause.id := List.mem_map_of_mem Clause.id hc
        rw [applyIntegrityRules_map_id] at hid
        rcases List.mem_map.mp hid with ⟨d, hd, hdid⟩
        have hd2 := List.mem_of_mem_filter hd
        rw [sortStable_mem] at hd2
        rcases List.mem_map.mp hd2 with ⟨f, hf, hfd⟩
        have hfid : d.id = f.id := by rw [← hfd, nestFuel_id]
        have hfsub := List.of_mem_filter hf
        rw [← hdid, hfid]
        simpa using hfsub
  · intro text i j hi hj hjmem
    set m := clausesAssoc text with hm
    rcases List.any_eq_true.mp hi with ⟨f, hfmem, hfid⟩
    have hfid' : f.id = i := by simpa using hfid
    have hfind : (m.find? (fun e => e.id == j)).isSome := by
      rcases List.any_eq_true.mp hjmem with ⟨g, hgmem, hgid⟩
      exact List.find?_isSome.mpr ⟨g, hgmem, hgid⟩
    rcases Option.isSome_iff_exists.mp hfind with ⟨g, hg⟩
    have hgid : g.id = j := by simpa using List.find?_some hg
    have hgmem : g ∈ m := List.mem_of_find?_eq_some hg
    simp only [nodeChildIds, hg]
    cases hm2 : m with
    | nil => rw [hm2] at hgmem; simp at hgmem
    | cons x xs =>
      rw [← hm2]
      have hlen : m.length = xs.length + 1 := by rw [hm2]; rfl
      have hnest : (nestFuel m.length m g).subclauses =
          (m.filter fun e =>
            isSubclause e.id && (getParentClauseId e.id == some g.id)).map
            (nestFuel xs.length m) := by
        rw [hlen]
        rfl
      rw [hnest, List.map_map]
      apply List.mem_map.mpr
      refine ⟨f, ?_, ?_⟩
      · apply List.mem_filter.mpr
        refine ⟨hfmem, ?_⟩
        rw [hfid']
        have hsub := getParentClauseId_isSubclause i j hj
        rw [hgid]
        simp [hsub, hj]
      · simp only [Function.comp_apply]
        rw [nestFuel_id, hfid']

/-- Text with a parent heading "1" and a sub-heading "1.1". -/
def exT1 : Str :=
  "1. Intro Heading\nSome body text for clause one.\n1.1 Sub Heading\nChild body text.".data

/-- C4 (witness). -/
theorem c4_witness :
    ((clausesAssoc exT1).any (fun e => e.id == "1.1".data)) = true ∧
    getParentClauseId "1.1".data = some "1".data ∧
    ((clausesAssoc exT1).any (fun e => e.id == "1".data)) = true ∧
    "1.1".data ∈ nodeChildIds (clausesAssoc exT1) "1".data :=
  ⟨by decide, by decide, by decide,
    c4_subclause_nesting.2 exT1 "1.1".data "1".data (by decide) (by decide) (by decide)⟩

/-- Example rules and clauses for the aggregation examples: one rule fires
HIGH on clauses of type "A", one fires MEDIUM on clauses of type "B". -/
def exRuleHighA : RiskRule :=
  mkRiskRule "R1".data "High on A".data ["A".data] [fun _ => true] "HIGH".data
    "d".data "w".data "r".data none none none none none none

def exRuleMedB : RiskRule :=
  mkRiskRule "R2".data "Med on B".data ["B".data] [fun _ => true] "MEDIUM".data
    "d".data "w".data "r".data none none none none none none

def exClauseA : InClause := ⟨none, none, some "body".data, some ["A".data]⟩

def exClauseB : InClause := ⟨none, none, some "body".data, some ["B".data]⟩

/-- C5: the contract-level severity is HIGH iff at least 3 clauses resolved
HIGH, else MEDIUM iff at least 1 clause resolved HIGH or at least 5 resolved
MEDIUM, else LOW; in particular 3 HIGH give HIGH, 1 HIGH plus 4 MEDIUM give
MEDIUM, and 0 HIGH plus 4 MEDIUM give LOW. -/
theorem c5_contract_severity_aggregation :
    (∀ (rules : List RiskRule) (cls : List InClause) (ct p : Option Str),
      (analyzeContract rules cls ct p).overall_risk =
        (if 3 ≤ cls.countP (clauseIsHigh rules ct p) then "HIGH".data
         else if 1 ≤ cls.countP (clauseIsHigh rules ct p) ∨
             5 ≤ cls.countP (fun c =>
               (analyzeClause rules c ct p).risk_level = "MEDIUM".data) then
           "MEDIUM".data
         else "LOW".data)) ∧
    (analyzeContract [exRuleHighA, exRuleMedB] [exClauseA, exClauseA, exClauseA]
        none none).overall_risk = "HIGH".data ∧
    (analyzeContract [exRuleHighA, exRuleMedB]
        [exClauseA, exClauseB, exClauseB, exClauseB, exClauseB]
        none none).overall_risk = "MEDIUM".data ∧
    (analyzeContract [exRuleHighA, exRuleMedB]
        [exClauseB, exClauseB, exClauseB, exClauseB]
        none none).overall_risk = "LOW".data := by
  refine ⟨?_, rfl, rfl, rfl⟩
  intro rules cls ct p
  have hmed : cls.countP (clauseIsMed rules ct p) =
      cls.countP (fun c => (analyzeClause rules c ct p).risk_level = "MEDIUM".data) := by
    apply List.countP_congr
    intro c _
    by_cases hM : (analyzeClause rules c ct p).risk_level = "MEDIUM".data
    · have hH : ¬ (analyzeClause rules c ct p).risk_level = "HIGH".data := by
        rw [hM]; decide
      simp [clauseIsMed, hM, hH]
    · simp [clauseIsMed, hM]
  rw [analyzeContract, contractFold]
  simp only [Nat.zero_add, hmed]

/-- C6: the resolved severity of a rule is the `perspective_risk_levels`
entry for the (lower-cased) active perspective when one exists, and the
default `risk_level` otherwise; in the claim's example the rule resolves to
HIGH for "employee", LOW for "employer", and MEDIUM with no perspective or
an unlisted one. -/
theorem c6_perspective_severity_resolution :
    (∀ (r : RiskRule) (p v : Str), p ≠ [] →
      lookupAssoc r.perspective_risk_levels (lowerStr p) = some v →
      getRiskLevel r (some p) = v) ∧
    (∀ (r : RiskRule) (p : Str), p ≠ [] →
      lookupAssoc r.perspective_risk_levels (lowerStr p) = none →
      getRiskLevel r (some p) = r.risk_level) ∧
    (∀ r : RiskRule, getRiskLevel r none = r.risk_level) ∧
    (let r := mkRiskRule "T1".data "Example".data [] [] "MEDIUM".data
        "d".data "w".data "rec".data none none none none
        (some [("employee".data, "HIGH".data), ("employer".data, "LOW".data)]) none
     getRiskLevel r (some "employee".data) = "HIGH".data ∧
     getRiskLevel r (some "employer".data) = "LOW".data ∧
     getRiskLevel r none = "MEDIUM".data ∧
     getRiskLevel r (some "contractor".data) = "MEDIUM".data) := by
  refine ⟨?_, ?_, ?_, by decide, by decide, by decide, by decide⟩
  · intro r p v hp hl
    have hpe : p.isEmpty = false := by
      cases p with
      | nil => exact absurd rfl hp
      | cons c tl => rfl
    simp [getRiskLevel, hpe, hl]
  · intro r p hp hl
    have hpe : p.isEmpty = false := by
      cases p with
      | nil => exact absurd rfl hp
      | cons c tl => rfl
    simp [getRiskLevel, hpe, hl]
  · intro r
    rfl

/-- C6 (witness). -/
theorem c6_witness :
    ("employee".data : Str) ≠ [] ∧
    lookupAssoc (mkRiskRule "T1".data "Example".data [] [] "MEDIUM".data
        "d".data "w".data "rec".data none none none none
        (some [("employee".data, "HIGH".data), ("employer".data, "LOW".data)])
        none).perspective_risk_levels (lowerStr "employee".data) =
      some "HIGH".data ∧
    getRiskLevel (mkRiskRule "T1".data "Example".data [] [] "MEDIUM".data
        "d".data "w".data "rec".data none none none none
        (some [("employee".data, "HIGH".data), ("employer".data, "LOW".data)])
        none) (some "employee".data) = "HIGH".data :=
  ⟨by decide, by decide,
    c6_perspective_severity_resolution.1 _ "employee".data "HIGH".data
      (by decide) (by decide)⟩

/-- A rule scoped to contract type "employment" whose pattern matches any
text at all. -/
def exEmploymentRule : RiskRule :=
  mkRiskRule "E1".data "Employment only".data [] [fun _ => true] "HIGH".data
    "d".data "w".data "r".data none none (some ["employment".data]) none none none

/-- C7: a rule with a non-empty `contract_types` (resp. `perspectives`) list
never matches when the active contract type (resp. perspective) is absent
from it under case-insensitive comparison — including when the context is
`None` — regardless of its text patterns; the constructor stores both
scoping lists lower-cased, which is what makes the comparison
case-insensitive.  In particular an "employment"-scoped rule never fires for
contract type "nda" even with an always-matching pattern. -/
theorem c7_rule_scoping :
    (∀ (r : RiskRule) (text : Str) (cts : List Str) (ct p : Option Str),
      r.contract_types ≠ [] →
      (∀ c, ct = some c → lowerStr c ∉ r.contract_types) →
      ruleMatches r text cts ct p = false) ∧
    (∀ (r : RiskRule) (text : Str) (cts : List Str) (ct p : Option Str),
      r.perspectives ≠ [] →
      (∀ q, p = some q → lowerStr q ∉ r.perspectives) →
      ruleMatches r text cts ct p = false) ∧
    (∀ (rid nm : Str) (cty : List Str) (pats : List PatternFn)
        (rl de wr rc : Str) (rd : Option Str) (ex : Option (List Str))
        (ctys pers : Option (List Str)) (prl pde : Option (List (Str × Str))),
      (mkRiskRule rid nm cty pats rl de wr rc rd ex ctys pers prl pde).contract_types =
        (ctys.getD []).map lowerStr ∧
      (mkRiskRule rid nm cty pats rl de wr rc rd ex ctys pers prl pde).perspectives =
        (pers.getD []).map lowerStr) ∧
    ruleMatches exEmploymentRule "text".data ["GENERAL".data] (some "nda".data) none =
      false ∧
    ruleMatches exEmploymentRule "text".data ["GENERAL".data]
      (some "EMPLOYMENT".data) none = true := by
  refine ⟨?_, ?_, fun _ _ _ _ _ _ _ _ _ _ _ _ _ _ => ⟨rfl, rfl⟩, by decide, by decide⟩
  · intro r text cts ct p hne hab
    have hcne : r.contract_types.isEmpty = false := by
      cases h : r.contract_types with
      | nil => exact absurd h hne
      | cons a tl => rfl
    cases ct with
    | none => simp [ruleMatches, hcne]
    | some c =>
      have hmem : lowerStr c ∉ r.contract_types := hab c rfl
      simp [ruleMatches, hcne, hmem]
  · intro r text cts ct p hne hab
    have hpne : r.perspectives.isEmpty = false := by
      cases h : r.perspectives with
      | nil => exact absurd h hne
      | cons a tl => rfl
    cases p with
    | none => simp [ruleMatches, hpne]
    | some q =>
      have hmem : lowerStr q ∉ r.perspectives := hab q rfl
      simp [ruleMatches, hpne, hmem]

/-- C7 (witness). -/
theorem c7_witness :
    exEmploymentRule.contract_types ≠ [] ∧
    ruleMatches exEmploymentRule "any text".data ["GENERAL".data]
      (some "nda".data) none = false :=
  ⟨by decide,
    c7_rule_scoping.1 exEmploymentRule "any text".data ["GENERAL".data]
      (some "nda".data) none (by decide)
      (fun c h => by cases h; decide)⟩

theorem scoreCat_foldl (title body : Str) (pats : List PatternFn) (a : Nat) :
    pats.foldl (fun s p => s + (if p title then 2 else 0) + (if p body then 1 else 0)) a =
      a + 2 * pats.countP (fun p => p title) + pats.countP (fun p => p body) := by
  induction pats generalizing a with
  | nil => simp
  | cons q qs ih =>
    rw [List.foldl_cons, ih]
    simp only [List.countP_cons]
    by_cases h1 : q title = true
    · by_cases h2 : q body = true
      · simp [h1, h2]; ring
      · simp [h1, h2]; ring
    · by_cases h2 : q body = true
      · simp [h1, h2]; ring
      · simp [h1, h2]

/-- C8: the classifier scores a category by adding 2 per pattern matching
the title and 1 per pattern matching the body; zero-scoring categories are
excluded; the surviving categories are ordered by descending score with
ties broken by the fixed priority ordering; and when nothing scores the
result is exactly the singleton GENERAL with primary type GENERAL. -/
theorem c8_weighted_classification :
    (∀ (title body : Str) (pats : List PatternFn),
      scoreCat title body pats =
        2 * pats.countP (fun p => p title) + pats.countP (fun p => p body)) ∧
    (∀ (table : List (Str × List PatternFn)) (txt ttl c : Str)
        (pats : List PatternFn),
      (c, pats) ∈ table → 0 < scoreCat (lowerStr ttl) (lowerStr txt) pats →
      c ∈ (classifyTypes table txt ttl).types) ∧
    (∀ (table : List (Str × List PatternFn)) (txt ttl c : Str),
      c ∈ (classifyTypes table txt ttl).types →
      (scoresOf table txt ttl = [] ∧ c = "GENERAL".data) ∨
      ∃ pats, (c, pats) ∈ table ∧ 0 < scoreCat (lowerStr ttl) (lowerStr txt) pats) ∧
    (∀ (table : List (Str × List PatternFn)) (txt ttl : Str),
      (orderedOf table txt ttl).Pairwise (fun a b =>
        b.2 ≤ a.2 ∧ (a.2 = b.2 →
          priorityIdx TYPE_PRIORITY a.1 ≤ priorityIdx TYPE_PRIORITY b.1))) ∧
    (∀ (table : List (Str × List PatternFn)) (txt ttl : Str),
      scoresOf table txt ttl = [] →
      (classifyTypes table txt ttl).types = ["GENERAL".data] ∧
      (classifyTypes table txt ttl).primary_type = "GENERAL".data) := by
  refine ⟨?_, ?_, ?_, ?_, ?_⟩
  · intro title body pats
    simpa [scoreCat] using scoreCat_foldl title body pats 0
  · intro table txt ttl c pats htab hpos
    have hsc : (c, scoreCat (lowerStr ttl) (lowerStr txt) pats) ∈ scoresOf table txt ttl := by
      apply List.mem_filterMap.mpr
      exact ⟨(c, pats), htab, by simp [hpos]⟩
    have hord : (c, scoreCat (lowerStr ttl) (lowerStr txt) pats) ∈ orderedOf table txt ttl := by
      rw [orderedOf, sortStable_mem]
      exact hsc
    have hne : (orderedOf table txt ttl).isEmpty = false := by
      cases h : orderedOf table txt ttl with
      | nil => rw [h] at hord; simp at hord
      | cons x xs => rfl
    simp only [classifyTypes, hne, Bool.false_eq_true, if_false]
    exact List.mem_map.mpr ⟨_, hord, rfl⟩
  · intro table txt ttl c hc
    by_cases he : (orderedOf table txt ttl).isEmpty = true
    · left
      have hs : scoresOf table txt ttl = [] := by
        have hord : orderedOf table txt ttl = [] := by
          cases h : orderedOf table txt ttl with
          | nil => rfl
          | cons x xs => rw [h] at he; simp at he
        apply List.eq_nil_iff_forall_not_mem.mpr
        intro x hx
        have : x ∈ orderedOf table txt ttl := by
          rw [orderedOf, sortStable_mem]; exact hx
        rw [hord] at this
        simp at this
      refine ⟨hs, ?_⟩
      simp only [classifyTypes, he, if_true] at hc
      simpa using hc
    · right
      have he2 : (orderedOf table txt ttl).isEmpty = false := by simpa using he
      simp only [classifyTypes, he2, Bool.false_eq_true, if_false] at hc
      rcases List.mem_map.mp hc with ⟨⟨c1, s⟩, hmem, hfst⟩
      have hsc : (c1, s) ∈ scoresOf table txt ttl := by
        rw [orderedOf, sortStable_mem] at hmem
        exact hmem
      rcases List.mem_filterMap.mp hsc with ⟨e, hetab, hge⟩
      by_cases hp : 0 < scoreCat (lowerStr ttl) (lowerStr txt) e.2
      · rw [if_pos hp] at hge
        have he1 : e.1 = c1 := congrArg Prod.fst (Option.some.inj hge)
        refine ⟨e.2, ?_, hp⟩
        have : (c, e.2) = e := by
          rw [Prod.ext_iff]
          exact ⟨by rw [he1, ← hfst], rfl⟩
        rw [this]
        exact hetab
      · rw [if_neg hp] at hge
        exact absurd hge (Option.noConfusion)
  · intro table txt ttl
    have hp := sortStable_pairwise classLt classLt_asym classLt_negtrans
      (scoresOf table txt ttl)
    rw [show sortStable classLt (scoresOf table txt ttl) = orderedOf table txt ttl from rfl]
      at hp
    refine hp.imp ?_
    intro a b h
    simp only [classLt, decide_eq_false_iff_not] at h
    constructor
    · omega
    · intro hab
      omega
  · intro table txt ttl hs
    have : orderedOf table txt ttl = [] := by
      rw [orderedOf, hs]
      rfl
    simp [classifyTypes, this]

/-- Table and inputs for the C8 witness. -/
def exTable : List (Str × List PatternFn) :=
  [("INDEMNITY".data, [fun s => containsSubstr "indemnif".data s]),
   ("LIABILITY".data, [fun _ => false])]

/-- C8 (witness). -/
theorem c8_witness :
    0 < scoreCat (lowerStr "Indemnification".data) (lowerStr "shall indemnify all".data)
        [fun s => containsSubstr "indemnif".data s] ∧
    "INDEMNITY".data ∈
      (classifyTypes exTable "shall indemnify all".data "Indemnification".data).types :=
  ⟨by decide,
    c8_weighted_classification.2.1 exTable "shall indemnify all".data
      "Indemnification".data "INDEMNITY".data
      [fun s => containsSubstr "indemnif".data s]
      (List.Mem.head _) (by decide)⟩

/-- C9 (counterexample): a structurally matching heading line longer than
100 characters whose address keyword "Avenue" (word-bounded) lies past the
100-character prefix is accepted by `is_valid_heading`, so "any structurally
matching line containing address vocabulary" is not always rejected. -/
def c9Line : Str := "1. ".data ++ List.replicate 97 'A' ++ " Avenue".data

theorem c9_counterexample :
    isValidHeading c9Line = true ∧
    (clauseHeadingMatch (stripWS c9Line)).isSome = true ∧
    "Avenue".data ∈ NON_HEADING_KEYWORDS ∧
    wbSearch (upperStr "Avenue".data) (upperStr c9Line) = true := by
  exact ⟨by decide, by decide, by decide, by decide⟩

/-- C9 (amended): the validator rejects any line whose stripped text starts
with a bare number outside [1, 99], and any line carrying one of the
address/noise keywords (word-bounded, case-insensitively) within the first
100 characters of its stripped text; in particular
"750 University Avenue, Suite 200" is never accepted. -/
theorem c9_heading_rejection :
    (∀ line : Str, (stripWS line).takeWhile isDigitChar ≠ [] →
      (natOfDigits ((stripWS line).takeWhile isDigitChar) < 1 ∨
       99 < natOfDigits ((stripWS line).takeWhile isDigitChar)) →
      isValidHeading line = false) ∧
    (∀ line : Str, containsKeywordWB (upperStr ((stripWS line).take 100)) = true →
      isValidHeading line = false) ∧
    isValidHeading "750 University Avenue, Suite 200".data = false := by
  refine ⟨?_, ?_, by decide⟩
  · intro line hds hrange
    have hde : ((stripWS line).takeWhile isDigitChar).isEmpty = false := by
      cases h : (stripWS line).takeWhile isDigitChar with
      | nil => exact absurd h hds
      | cons a tl => rfl
    have hnum : numRangeOk (stripWS line) = false := by
      simp only [numRangeOk, hde, Bool.false_eq_true, if_false]
      simp only [decide_eq_false_iff_not]
      omega
    simp [isValidHeading, hnum]
  · intro line hkw
    simp [isValidHeading, hkw]

/-- C9 (witness). -/
theorem c9_witness :
    ((stripWS "750 Some Words".data).takeWhile isDigitChar ≠ [] ∧
      99 < natOfDigits ((stripWS "750 Some Words".data).takeWhile isDigitChar)) ∧
    isValidHeading "750 Some Words".data = false ∧
    containsKeywordWB (upperStr ((stripWS "1. Suite Details".data).take 100)) = true ∧
    isValidHeading "1. Suite Details".data = false :=
  ⟨⟨by decide, by decide⟩,
    c9_heading_rejection.1 "750 Some Words".data (by decide) (Or.inr (by decide)),
    by decide,
    c9_heading_rejection.2.1 "1. Suite Details".data (by decide)⟩

/-- C10: `analyze_contract` returns exactly one clause analysis per input
clause, in input order, and its three severity counters partition the
clauses: high + medium + low = total = length of the input. -/
theorem c10_contract_result_shape (rules : List RiskRule) (cls : List InClause)
    (ct p : Option Str) :
    (analyzeContract rules cls ct p).clause_analyses =
      cls.map (fun c => analyzeClause rules c ct p) ∧
    (analyzeContract rules cls ct p).total_clauses = cls.length ∧
    (analyzeContract rules cls ct p).high_risk_clauses +
        (analyzeContract rules cls ct p).medium_risk_clauses +
        (analyzeContract rules cls ct p).low_risk_clauses =
      (analyzeContract rules cls ct p).total_clauses := by
  have hpart := countP_partition (clauseIsHigh rules ct p)
    (fun c => ((analyzeClause rules c ct p).risk_level = "MEDIUM".data : Bool)) cls
  have hmed : (fun c => !(clauseIsHigh rules ct p c) &&
      ((analyzeClause rules c ct p).risk_level = "MEDIUM".data : Bool)) =
      clauseIsMed rules ct p := rfl
  have hlow : (fun c => !(clauseIsHigh rules ct p c) &&
      !((analyzeClause rules c ct p).risk_level = "MEDIUM".data : Bool)) =
      clauseIsLow rules ct p := rfl
  rw [hmed, hlow] at hpart
  rw [analyzeContract, contractFold]
  refine ⟨rfl, rfl, ?_⟩
  simpa using hpart
